import Mathlib

/-
Verification of the publish/subscribe fan-out primitive from src/src/lib.rs.

The Rust core is:

  struct Observable<T> { subscribers: Vec<Weak<Mutex<dyn Observer<T>>>> }

  fn new() -> Observable<T>
  fn register(&mut self, observer: Weak<Mutex<dyn Observer<T>>>)
  fn send_to_all(&self, message: &T) -> usize
  fn send_to(&self, message: &T, i: usize) -> Option<()>

We embed it shallowly.  Observer objects live in an explicit heap of
cells (one cell per Arc<Mutex<dyn Observer<T>>> allocation); a weak
reference is the address of a cell.  A cell records whether the referent
is still alive (Weak::upgrade succeeds), whether its mutex can be locked
(lock().ok() is Some; a poisoned mutex has lockOk = false), the notify
implementation of the dynamic Observer trait object, and the current
observer state.  Using heap addresses rather than inlining observer
state into the subscriber list keeps Arc aliasing observable: the same
observer may be registered several times, exactly as in the Rust code.

All mutation performed by the Rust code during delivery goes through the
Mutex (interior mutability; send_to and send_to_all take &self), so the
subscriber list itself never changes during delivery; the embedding
mirrors this by having send_to and send_to_all return the updated heap
and leave the Observable untouched.
-/

namespace ObservableSpec

/-- One heap cell: the allocation behind one Arc<Mutex<dyn Observer<T>>>.
T is the message type, S the observer state type. -/
structure Cell (T S : Type) where
  live : Bool
  lockOk : Bool
  notify : T → S → S
  state : S

/-- The heap: the cells of all observer allocations, addressed by position. -/
structure Heap (T S : Type) where
  cells : List (Cell T S)

/-- Weak::upgrade on address a: returns the cell iff the referent still exists. -/
def Weak.upgrade {T S : Type} (h : Heap T S) (a : Nat) : Option (Cell T S) :=
  match h.cells[a]? with
  | some c => if c.live then some c else none
  | none => none

/-- Observable<T>: the ordered list of registered weak references
(heap addresses).  Mirrors struct Observable { subscribers: Vec<...> }. -/
structure Observable where
  subscribers : List Nat

/-- Observable::new -/
def Observable.new : Observable := ⟨[]⟩

/-- Observable::register: push the weak reference onto the subscriber vector. -/
def Observable.register (o : Observable) (w : Nat) : Observable :=
  ⟨o.subscribers ++ [w]⟩

/-- Observable::send_to: self.subscribers.get(i)
      .and_then(|s| s.upgrade())
      .and_then(|s| s.lock().ok().as_mut().map(|s| { s.notify(message); })).
Returns the Option<()> result together with the heap after the call. -/
def Observable.send_to {T S : Type} (o : Observable) (h : Heap T S) (m : T) (i : Nat) :
    Option Unit × Heap T S :=
  match o.subscribers[i]? with
  | none => (none, h)
  | some a =>
    match Weak.upgrade h a with
    | none => (none, h)
    | some c =>
      if c.lockOk then
        (some (), ⟨h.cells.set a { c with state := c.notify m c.state }⟩)
      else
        (none, h)

/-- One step of the fold inside send_to_all:
match self.send_to(message, i) { Some(_) => acc + 1, None => acc },
threading the heap. -/
def sendStep {T S : Type} (o : Observable) (m : T) (p : Nat × Heap T S) (i : Nat) :
    Nat × Heap T S :=
  match o.send_to p.2 m i with
  | (some _, h2) => (p.1 + 1, h2)
  | (none, h2) => (p.1, h2)

/-- Observable::send_to_all: (0..self.subscribers.len()).fold(0, ...). -/
def Observable.send_to_all {T S : Type} (o : Observable) (h : Heap T S) (m : T) :
    Nat × Heap T S :=
  (List.range o.subscribers.length).foldl (sendStep o m) (0, h)

/-- The liveness/lockability skeleton of the heap: everything that decides
delivery success, and nothing that delivery can change. -/
def Heap.skeleton {T S : Type} (h : Heap T S) : List (Bool × Bool) :=
  h.cells.map (fun c => (c.live, c.lockOk))

/-- deliverable sk subs i: slot i exists, its referent exists and its lock
can be acquired (decides success of send_to at index i). -/
def deliverable (sk : List (Bool × Bool)) (subs : List Nat) (i : Nat) : Bool :=
  match subs[i]? with
  | none => false
  | some a =>
    match sk[a]? with
    | none => false
    | some lk => lk.1 && lk.2

variable {T S : Type}

/- Helper lemmas about the embedding. -/

lemma skeleton_getElem (h : Heap T S) (a : Nat) :
    h.skeleton[a]? = h.cells[a]?.map (fun c => (c.live, c.lockOk)) := by
  simp [Heap.skeleton, List.getElem?_map]

lemma upgrade_some_elim {h : Heap T S} {a : Nat} {c : Cell T S}
    (hup : Weak.upgrade h a = some c) :
    h.cells[a]? = some c ∧ c.live = true := by
  unfold Weak.upgrade at hup
  cases hc : h.cells[a]? with
  | none => rw [hc] at hup; exact absurd hup (by simp)
  | some c0 =>
    rw [hc] at hup
    cases hl : c0.live with
    | false => simp [hl] at hup
    | true =>
      simp [hl] at hup
      subst hup
      exact ⟨rfl, hl⟩

lemma deliverable_def_none {sk : List (Bool × Bool)} {subs : List Nat} {i : Nat}
    (hsub : subs[i]? = none) : deliverable sk subs i = false := by
  simp [deliverable, hsub]

lemma deliverable_def_some {sk : List (Bool × Bool)} {subs : List Nat} {i a : Nat}
    (hsub : subs[i]? = some a) :
    deliverable sk subs i =
      (match sk[a]? with
       | none => false
       | some lk => lk.1 && lk.2) := by
  simp [deliverable, hsub]

lemma deliverable_false_of_upgrade_none {h : Heap T S} {subs : List Nat} {i a : Nat}
    (hsub : subs[i]? = some a) (hup : Weak.upgrade h a = none) :
    deliverable h.skeleton subs i = false := by
  rw [deliverable_def_some hsub, skeleton_getElem]
  unfold Weak.upgrade at hup
  cases hc : h.cells[a]? with
  | none => rfl
  | some c =>
    rw [hc] at hup
    cases hl : c.live with
    | true => simp [hl] at hup
    | false => simp [hl]

lemma deliverable_of_upgrade {h : Heap T S} {subs : List Nat} {i a : Nat} {c : Cell T S}
    (hsub : subs[i]? = some a) (hup : Weak.upgrade h a = some c) :
    deliverable h.skeleton subs i = c.lockOk := by
  obtain ⟨hc, hl⟩ := upgrade_some_elim hup
  rw [deliverable_def_some hsub, skeleton_getElem, hc]
  simp [hl]

lemma deliverable_true_elim {h : Heap T S} {subs : List Nat} {i : Nat}
    (hd : deliverable h.skeleton subs i = true) :
    ∃ a c, subs[i]? = some a ∧ Weak.upgrade h a = some c ∧ c.lockOk = true := by
  cases hsub : subs[i]? with
  | none => rw [deliverable_def_none hsub] at hd; exact absurd hd (by simp)
  | some a =>
    rw [deliverable_def_some hsub, skeleton_getElem] at hd
    cases hc : h.cells[a]? with
    | none => rw [hc] at hd; exact absurd hd (by simp)
    | some c =>
      rw [hc] at hd
      simp only [Option.map_some'] at hd
      have hlive : c.live = true := by
        cases hl : c.live
        · rw [hl] at hd; exact absurd hd (by simp)
        · rfl
      have hlk : c.lockOk = true := by
        rw [hlive] at hd
        simpa using hd
      refine ⟨a, c, rfl, ?_, hlk⟩
      simp [Weak.upgrade, hc, hlive]

lemma send_to_oob {o : Observable} {h : Heap T S} {m : T} {i : Nat}
    (hsub : o.subscribers[i]? = none) :
    o.send_to h m i = (none, h) := by
  simp [Observable.send_to, hsub]

lemma send_to_dead {o : Observable} {h : Heap T S} {m : T} {i a : Nat}
    (hsub : o.subscribers[i]? = some a) (hup : Weak.upgrade h a = none) :
    o.send_to h m i = (none, h) := by
  simp [Observable.send_to, hsub, hup]

lemma send_to_poisoned {o : Observable} {h : Heap T S} {m : T} {i a : Nat} {c : Cell T S}
    (hsub : o.subscribers[i]? = some a) (hup : Weak.upgrade h a = some c)
    (hlk : c.lockOk = false) :
    o.send_to h m i = (none, h) := by
  simp [Observable.send_to, hsub, hup, hlk]

lemma send_to_of_succ {o : Observable} {h : Heap T S} (m : T) {i a : Nat} {c : Cell T S}
    (hsub : o.subscribers[i]? = some a) (hup : Weak.upgrade h a = some c)
    (hlk : c.lockOk = true) :
    o.send_to h m i =
      (some (), ⟨h.cells.set a { c with state := c.notify m c.state }⟩) := by
  simp [Observable.send_to, hsub, hup, hlk]

lemma send_to_of_fail {o : Observable} {h : Heap T S} {m : T} {i : Nat}
    (hfail : deliverable h.skeleton o.subscribers i = false) :
    o.send_to h m i = (none, h) := by
  cases hsub : o.subscribers[i]? with
  | none => exact send_to_oob hsub
  | some a =>
    cases hup : Weak.upgrade h a with
    | none => exact send_to_dead hsub hup
    | some c =>
      have hd := deliverable_of_upgrade hsub hup
      rw [hfail] at hd
      exact send_to_poisoned hsub hup hd.symm

lemma send_to_isSome (o : Observable) (h : Heap T S) (m : T) (i : Nat) :
    (o.send_to h m i).1.isSome = deliverable h.skeleton o.subscribers i := by
  cases hd : deliverable h.skeleton o.subscribers i with
  | false => rw [send_to_of_fail hd]; rfl
  | true =>
    obtain ⟨a, c, hsub, hup, hlk⟩ := deliverable_true_elim hd
    rw [send_to_of_succ m hsub hup hlk]
    rfl

lemma skeleton_set_notify {h : Heap T S} {a : Nat} {c : Cell T S} (m : T)
    (hc : h.cells[a]? = some c) :
    (Heap.mk (h.cells.set a { c with state := c.notify m c.state }) : Heap T S).skeleton
      = h.skeleton := by
  apply List.ext_getElem?
  intro n
  rw [skeleton_getElem, skeleton_getElem]
  by_cases hn : n = a
  · subst hn
    have hlt : n < h.cells.length := (List.getElem?_eq_some_iff.mp hc).1
    rw [List.getElem?_set_self hlt, hc]
    simp
  · rw [List.getElem?_set_ne (by omega)]

lemma skeleton_send_to (o : Observable) (h : Heap T S) (m : T) (i : Nat) :
    ((o.send_to h m i).2).skeleton = h.skeleton := by
  cases hd : deliverable h.skeleton o.subscribers i with
  | false => rw [send_to_of_fail hd]
  | true =>
    obtain ⟨a, c, hsub, hup, hlk⟩ := deliverable_true_elim hd
    rw [send_to_of_succ m hsub hup hlk]
    exact skeleton_set_notify m (upgrade_some_elim hup).1

lemma foldl_sendStep_count (o : Observable) (m : T) (l : List Nat) :
    ∀ (acc : Nat) (h : Heap T S),
      (l.foldl (sendStep o m) (acc, h)).1 =
        acc + l.countP (fun i => deliverable h.skeleton o.subscribers i) := by
  induction l with
  | nil => intro acc h; simp
  | cons i l ih =>
    intro acc h
    rw [List.foldl_cons, List.countP_cons]
    cases hd : deliverable h.skeleton o.subscribers i with
    | false =>
      have hstep : sendStep o m (acc, h) i = (acc, h) := by
        simp [sendStep, send_to_of_fail hd]
      rw [hstep, ih acc h]
      simp
    | true =>
      obtain ⟨a, c, hsub, hup, hlk⟩ := deliverable_true_elim hd
      have hstep : sendStep o m (acc, h) i =
          (acc + 1, ⟨h.cells.set a { c with state := c.notify m c.state }⟩) := by
        simp [sendStep, send_to_of_succ m hsub hup hlk]
      rw [hstep, ih (acc + 1) _,
        skeleton_set_notify m (upgrade_some_elim hup).1]
      simp
      omega

lemma foldl_sendStep_cells (o : Observable) (m : T) (l : List Nat) :
    ∀ (acc : Nat) (h : Heap T S) (b : Nat),
      ((l.foldl (sendStep o m) (acc, h)).2).cells[b]? =
        h.cells[b]?.map (fun c =>
          { c with state := (fun s => c.notify m s)^[l.countP (fun j =>
              decide (o.subscribers[j]? = some b) &&
                deliverable h.skeleton o.subscribers j)] c.state }) := by
  induction l with
  | nil =>
    intro acc h b
    show h.cells[b]? = _
    cases h.cells[b]? with
    | none => rfl
    | some c => rfl
  | cons i l ih =>
    intro acc h b
    rw [List.foldl_cons, List.countP_cons]
    cases hd : deliverable h.skeleton o.subscribers i with
    | false =>
      have hstep : sendStep o m (acc, h) i = (acc, h) := by
        simp [sendStep, send_to_of_fail hd]
      rw [hstep, ih acc h b]
      simp
    | true =>
      obtain ⟨a, c, hsub, hup, hlk⟩ := deliverable_true_elim hd
      have hc := (upgrade_some_elim hup).1
      have hlt : a < h.cells.length := (List.getElem?_eq_some_iff.mp hc).1
      have hstep : sendStep o m (acc, h) i =
          (acc + 1, ⟨h.cells.set a { c with state := c.notify m c.state }⟩) := by
        simp [sendStep, send_to_of_succ m hsub hup hlk]
      rw [hstep, ih (acc + 1) _ b, skeleton_set_notify m hc, hsub]
      show (h.cells.set a { c with state := c.notify m c.state })[b]?.map _ = _
      by_cases hab : a = b
      · subst hab
        rw [List.getElem?_set_self hlt, hc]
        simp [Function.iterate_succ_apply]
      · rw [List.getElem?_set_ne hab]
        simp [hab]

lemma send_to_all_count (o : Observable) (h : Heap T S) (m : T) :
    (o.send_to_all h m).1 =
      (List.range o.subscribers.length).countP
        (fun i => deliverable h.skeleton o.subscribers i) := by
  unfold Observable.send_to_all
  rw [foldl_sendStep_count]
  exact Nat.zero_add _

lemma send_to_all_cells (o : Observable) (h : Heap T S) (m : T) (b : Nat) :
    (o.send_to_all h m).2.cells[b]? =
      h.cells[b]?.map (fun c =>
        { c with state := (fun s => c.notify m s)^[(List.range o.subscribers.length).countP (fun j =>
            decide (o.subscribers[j]? = some b) &&
              deliverable h.skeleton o.subscribers j)] c.state }) := by
  unfold Observable.send_to_all
  rw [foldl_sendStep_cells]

lemma deliverable_congr {sk : List (Bool × Bool)} {subs subs2 : List Nat} {i : Nat}
    (hsub : subs2[i]? = subs[i]?) : deliverable sk subs2 i = deliverable sk subs i := by
  unfold deliverable
  rw [hsub]

lemma countP_eq_one_of_unique {p : Nat → Bool} {l : List Nat} {i : Nat}
    (hi : i ∈ l) (hp : p i = true) (huniq : ∀ j ∈ l, p j = true → j = i)
    (hnd : l.Nodup) : l.countP p = 1 := by
  induction l with
  | nil => exact absurd hi (List.not_mem_nil i)
  | cons x l ih =>
    rw [List.countP_cons]
    cases hx : p x with
    | true =>
      have hxi : x = i := huniq x (List.mem_cons_self x l) hx
      have hnotmem : i ∉ l := hxi ▸ (List.nodup_cons.mp hnd).1
      have hzero : l.countP p = 0 := by
        rw [List.countP_eq_zero]
        intro j hj hpj
        exact hnotmem ((huniq j (List.mem_cons_of_mem x hj) hpj) ▸ hj)
      rw [hzero]
      simp
    | false =>
      have hxi : x ≠ i := fun hxi => by rw [hxi, hp] at hx; exact absurd hx (by simp)
      have hi2 : i ∈ l := by
        cases List.mem_cons.mp hi with
        | inl h2 => exact absurd h2.symm hxi
        | inr h2 => exact h2
      rw [ih hi2 (fun j hj hpj => huniq j (List.mem_cons_of_mem x hj) hpj)
        (List.nodup_cons.mp hnd).2]
      simp

lemma foldl_register_subscribers (l : List Nat) :
    ∀ (o : Observable), (l.foldl Observable.register o).subscribers = o.subscribers ++ l := by
  induction l with
  | nil => intro o; simp
  | cons w l ih =>
    intro o
    rw [List.foldl_cons, ih]
    simp [Observable.register]

/-- One call of the public surface of Observable, for stating trace
invariants over a whole usage history. -/
inductive Op (T : Type) where
  | register (w : Nat)
  | send_to (m : T) (i : Nat)
  | send_to_all (m : T)

/-- Execute one call on the pair (observable, heap).  register takes the
Observable by mutable reference and pushes onto the subscriber vector; the
two send operations take it by shared reference, so they can only change
observer cells (through each Mutex), never the subscriber vector. -/
def exec {T S : Type} (s : Observable × Heap T S) : Op T → Observable × Heap T S
  | Op.register w => (s.1.register w, s.2)
  | Op.send_to m i => (s.1, (s.1.send_to s.2 m i).2)
  | Op.send_to_all m => (s.1, (s.1.send_to_all s.2 m).2)

/-- The weak references registered by a trace, in registration order. -/
def regsOf {T : Type} : List (Op T) → List Nat :=
  List.filterMap (fun op => match op with
    | Op.register w => some w
    | _ => none)

lemma foldl_exec_subscribers {T S : Type} (ops : List (Op T)) :
    ∀ (o : Observable) (h : Heap T S),
      (ops.foldl exec (o, h)).1.subscribers = o.subscribers ++ regsOf ops := by
  induction ops with
  | nil => intro o h; simp [regsOf]
  | cons op ops ih =>
    intro o h
    rw [List.foldl_cons]
    cases op with
    | register w =>
      rw [ih]
      simp [exec, regsOf, Observable.register]
    | send_to m i =>
      rw [ih]
      simp [exec, regsOf]
    | send_to_all m =>
      rw [ih]
      simp [exec, regsOf]

/- Concrete instances used by witnesses and counterexamples. -/

/-- A live, lockable observer over Nat messages and Nat state: notify adds
the message to the state. -/
def wCell : Cell Nat Nat :=
  { live := true, lockOk := true, notify := fun m s => s + m, state := 0 }

/-- A cell whose referent has been dropped (Weak::upgrade fails). -/
def wDead : Cell Nat Nat := { wCell with live := false }

/-- A live cell whose mutex is poisoned (lock().ok() is None). -/
def wPois : Cell Nat Nat := { wCell with lockOk := false }

/-- Concrete heap holding one live, one dead and one poisoned observer. -/
def wHeap : Heap Nat Nat := ⟨[wCell, wDead, wPois]⟩

/-- Observable with the three observers of wHeap registered in order. -/
def wObs : Observable := ⟨[0, 1, 2]⟩

/-- Heap with two distinct live, lockable observers. -/
def w2Heap : Heap Nat Nat := ⟨[wCell, { wCell with state := 3 }]⟩

/-- Observable with the two observers of w2Heap registered. -/
def w2Obs : Observable := ⟨[0, 1]⟩

/-- Observable registering the SAME observer (heap address 0) in two slots,
as the Rust code permits (the same Arc downgraded twice). -/
def aObs : Observable := ⟨[0, 0]⟩

/-- Claim C2: send_to(m, i) reports failure (None, no exception) if and only
if the index is out of bounds of the subscriber sequence, or the weak
reference at slot i has a destroyed referent, or lock acquisition on the
referent fails; otherwise it reports success and invokes notify on the
referent synchronously with m exactly once (the heap after the call holds
exactly one application of notify at the cell of that slot). -/
theorem C2_send_to_failure_iff (o : Observable) (h : Heap T S) (m : T) (i : Nat) :
    ((o.send_to h m i).1 = none ↔
      o.subscribers[i]? = none
        ∨ (∃ a, o.subscribers[i]? = some a ∧ Weak.upgrade h a = none)
        ∨ (∃ a c, o.subscribers[i]? = some a ∧ Weak.upgrade h a = some c ∧
            c.lockOk = false))
    ∧ (∀ a c, o.subscribers[i]? = some a → Weak.upgrade h a = some c →
        c.lockOk = true →
        (o.send_to h m i).1 = some () ∧
        (o.send_to h m i).2.cells =
          h.cells.set a { c with state := c.notify m c.state }) := by
  constructor
  · constructor
    · intro hnone
      cases hsub : o.subscribers[i]? with
      | none => exact Or.inl rfl
      | some a =>
        cases hup : Weak.upgrade h a with
        | none => exact Or.inr (Or.inl ⟨a, rfl, hup⟩)
        | some c =>
          cases hlk : c.lockOk with
          | false => exact Or.inr (Or.inr ⟨a, c, rfl, hup, hlk⟩)
          | true =>
            rw [send_to_of_succ m hsub hup hlk] at hnone
            exact absurd hnone (by simp)
    · intro hfail
      rcases hfail with hsub | ⟨a, hsub, hup⟩ | ⟨a, c, hsub, hup, hlk⟩
      · rw [send_to_oob hsub]
      · rw [send_to_dead hsub hup]
      · rw [send_to_poisoned hsub hup hlk]
  · intro a c hsub hup hlk
    rw [send_to_of_succ m hsub hup hlk]
    exact ⟨rfl, rfl⟩

/-- Witness for C2 at a concrete input: slot 0 of wObs is live and lockable,
delivery of message 5 succeeds and applies notify once. -/
theorem C2_send_to_failure_iff_witness :
    (wObs.send_to wHeap 5 0).1 = some () ∧
    (wObs.send_to wHeap 5 0).2.cells =
      wHeap.cells.set 0 { wCell with state := wCell.notify 5 wCell.state } :=
  (C2_send_to_failure_iff wObs wHeap 5 0).2 0 wCell rfl rfl rfl

/-- Claim C3: send_to_all(m) attempts delivery at every registered slot in
registration order, a failure at one slot never prevents the attempt at any
later slot, and the returned value is exactly the number of slots whose
individual send_to attempt succeeds (0 when none succeed). -/
theorem C3_count_is_successes (o : Observable) (h : Heap T S) (m : T) :
    (o.send_to_all h m).1 =
      ((List.range o.subscribers.length).filter
        (fun i => (o.send_to h m i).1.isSome)).length := by
  rw [send_to_all_count, ← List.countP_eq_length_filter]
  exact List.countP_congr (fun i _ => by rw [send_to_isSome])

/-- Counterexample to C4 as stated: aObs registers the same observer at
slots 0 and 1 (the Rust code allows registering the same Arc twice).
send_to(5, 0) succeeds and changes the state of the observer registered at
slot 1 — it is that very observer — so "the states of all observers
registered at other slots are unchanged" fails. -/
theorem C4_counterexample :
    aObs.subscribers[1]? = some 0 ∧
    (aObs.send_to wHeap 5 0).1 = some () ∧
    (aObs.send_to wHeap 5 0).2.cells[0]?.map Cell.state ≠
      wHeap.cells[0]?.map Cell.state := by
  exact ⟨rfl, rfl, by decide⟩

/-- Claim C4 (amended): send_to(m, i) mutates at most the observer that
slot i references: every observer other than the one slot i references is
unchanged (if that observer is also registered at another slot, that slot
sees the change, since it is the same observer); only observer state is
ever mutated, never liveness, lockability or behavior; and an out-of-range
index returns failure and leaves every observer untouched. -/
theorem C4_frame (o : Observable) (h : Heap T S) (m : T) (i : Nat) :
    (∀ b : Nat, o.subscribers[i]? ≠ some b →
      (o.send_to h m i).2.cells[b]? = h.cells[b]?)
    ∧ (∀ b : Nat,
        (o.send_to h m i).2.cells[b]?.map
            (fun c : Cell T S => (c.live, c.lockOk, c.notify)) =
          h.cells[b]?.map (fun c : Cell T S => (c.live, c.lockOk, c.notify)))
    ∧ (o.subscribers.length ≤ i → o.send_to h m i = (none, h)) := by
  refine ⟨?_, ?_, ?_⟩
  · intro b hb
    cases hd : deliverable h.skeleton o.subscribers i with
    | false => rw [send_to_of_fail hd]
    | true =>
      obtain ⟨a, c, hsub, hup, hlk⟩ := deliverable_true_elim hd
      rw [send_to_of_succ m hsub hup hlk]
      show (h.cells.set a _)[b]? = _
      rw [List.getElem?_set_ne (fun hab => hb (by rw [← hab]; exact hsub))]
  · intro b
    cases hd : deliverable h.skeleton o.subscribers i with
    | false => rw [send_to_of_fail hd]
    | true =>
      obtain ⟨a, c, hsub, hup, hlk⟩ := deliverable_true_elim hd
      have hc := (upgrade_some_elim hup).1
      have hlt : a < h.cells.length := (List.getElem?_eq_some_iff.mp hc).1
      rw [send_to_of_succ m hsub hup hlk]
      show (h.cells.set a _)[b]?.map _ = _
      by_cases hab : a = b
      · subst hab
        rw [List.getElem?_set_self hlt, hc]
        rfl
      · rw [List.getElem?_set_ne hab]
  · intro hle
    exact send_to_oob (List.getElem?_eq_none_iff.mpr hle)

/-- Witness for C4 (amended) at concrete inputs: delivering to slot 0 of
wObs leaves the cell of slot 1 unchanged, and the out-of-range index 9
returns failure with the heap untouched. -/
theorem C4_frame_witness :
    (wObs.send_to wHeap 5 0).2.cells[1]? = wHeap.cells[1]? ∧
    wObs.send_to wHeap 5 9 = (none, wHeap) :=
  ⟨(C4_frame wObs wHeap 5 0).1 1 (by decide),
    (C4_frame wObs wHeap 5 9).2.2 (by decide)⟩

/-- Counterexample to C1 as stated: the same live, lockable observer
registered in two slots (allowed by the code and by the data model, which
says the same observer may be registered multiple times): N = 2 and
send_to_all(5) returns 2, but that observer receives notify twice — its
final state is two applications of notify, not the single application the
claim promises for every registered observer. -/
theorem C1_counterexample :
    Weak.upgrade wHeap 0 = some wCell ∧ wCell.lockOk = true ∧
    aObs.subscribers = [0, 0] ∧
    (aObs.send_to_all wHeap 5).1 = 2 ∧
    (aObs.send_to_all wHeap 5).2.cells[0]?.map Cell.state ≠
      wHeap.cells[0]?.map (fun c => c.notify 5 c.state) := by
  exact ⟨rfl, rfl, rfl, rfl, by decide⟩

/-- Claim C1 (amended): if every registered weak reference is live with an
acquirable lock AND the registered references point to pairwise distinct
observers, then send_to_all(m) returns the number of registered slots and
each registered observer has notify applied to it exactly once with m. -/
theorem C1_fan_out (o : Observable) (h : Heap T S) (m : T)
    (hlive : ∀ (i a : Nat), o.subscribers[i]? = some a →
      ∃ c, Weak.upgrade h a = some c ∧ c.lockOk = true)
    (hnd : o.subscribers.Nodup) :
    (o.send_to_all h m).1 = o.subscribers.length ∧
    ∀ (i a : Nat), o.subscribers[i]? = some a →
      (o.send_to_all h m).2.cells[a]? =
        h.cells[a]?.map
          (fun c : Cell T S => { c with state := c.notify m c.state }) := by
  have hall : ∀ i ∈ List.range o.subscribers.length,
      deliverable h.skeleton o.subscribers i = true := by
    intro i hi
    rw [List.mem_range] at hi
    have ha : o.subscribers[i]? = some o.subscribers[i] :=
      List.getElem?_eq_getElem hi
    obtain ⟨c, hup, hlk⟩ := hlive i _ ha
    rw [deliverable_of_upgrade ha hup, hlk]
  constructor
  · rw [send_to_all_count, List.countP_eq_length.mpr hall, List.length_range]
  · intro i a ha
    have hlt : i < o.subscribers.length := (List.getElem?_eq_some_iff.mp ha).1
    rw [send_to_all_cells]
    have hone : (List.range o.subscribers.length).countP (fun j =>
        decide (o.subscribers[j]? = some a) &&
          deliverable h.skeleton o.subscribers j) = 1 := by
      apply countP_eq_one_of_unique (i := i)
      · exact List.mem_range.mpr hlt
      · rw [ha, hall i (List.mem_range.mpr hlt)]
        simp
      · intro j hj hpj
        rw [Bool.and_eq_true, decide_eq_true_eq] at hpj
        exact (List.getElem?_inj hlt hnd (ha.trans hpj.1.symm)).symm
      · exact List.nodup_range _
    rw [hone]
    simp only [Function.iterate_one]

/-- Witness for C1 (amended) at a concrete input: two distinct live
observers, message 5: count is 2 and each observer state shows one
application of notify. -/
theorem C1_fan_out_witness :
    (w2Obs.send_to_all w2Heap 5).1 = 2 ∧
    ∀ (i a : Nat), w2Obs.subscribers[i]? = some a →
      (w2Obs.send_to_all w2Heap 5).2.cells[a]? =
        w2Heap.cells[a]?.map
          (fun c : Cell Nat Nat => { c with state := c.notify 5 c.state }) := by
  have hres := C1_fan_out w2Obs w2Heap 5
    (by
      intro i a ha
      match i with
      | 0 => cases ha; exact ⟨wCell, rfl, rfl⟩
      | 1 => cases ha; exact ⟨{ wCell with state := 3 }, rfl, rfl⟩
      | n + 2 => exact absurd ha (by simp [w2Obs]))
    (by decide)
  exact ⟨hres.1, hres.2⟩

/-- Claim C5: a registered slot whose owning handle was dropped before
delivery (Weak::upgrade fails) is skipped without crash: send_to_all
completes and returns the success count over the remaining slots only,
excluding the dead slot. -/
theorem C5_dead_skip (o : Observable) (h : Heap T S) (m : T) {j a : Nat}
    (hj : o.subscribers[j]? = some a) (hdead : Weak.upgrade h a = none) :
    (o.send_to_all h m).1 =
      ((List.range o.subscribers.length).filter
        (fun i => !(i == j) && (o.send_to h m i).1.isSome)).length := by
  rw [send_to_all_count, ← List.countP_eq_length_filter]
  apply List.countP_congr
  intro i _
  rw [send_to_isSome]
  by_cases hij : i = j
  · subst hij
    rw [deliverable_false_of_upgrade_none hj hdead]
    simp
  · simp [hij]

/-- Witness for C5 at a concrete input: slot 1 of wObs holds a dead
reference, and the count of send_to_all equals the successes among the
other slots. -/
theorem C5_dead_skip_witness :
    (wObs.send_to_all wHeap 5).1 =
      ((List.range wObs.subscribers.length).filter
        (fun i => !(i == 1) && (wObs.send_to wHeap 5 i).1.isSome)).length :=
  C5_dead_skip wObs wHeap 5 (j := 1) (a := 1) rfl rfl

/-- Claim C6: register appends the given weak reference at the end of the
subscriber sequence, the reference registered when the sequence has length
n is addressed by index n, and a whole sequence of registrations starting
from new() yields exactly that sequence, so the k-th registration sits at
its zero-based registration number k.  register never consults the heap, so
this holds independently of the liveness of any observer. -/
theorem C6_register_append (o : Observable) (w : Nat) (l : List Nat) :
    (o.register w).subscribers = o.subscribers ++ [w] ∧
    (o.register w).subscribers[o.subscribers.length]? = some w ∧
    (l.foldl Observable.register Observable.new).subscribers = l := by
  refine ⟨rfl, ?_, ?_⟩
  · show (o.subscribers ++ [w])[o.subscribers.length]? = some w
    exact List.getElem?_concat_length _ _
  · rw [foldl_register_subscribers]
    rfl

/-- Claim C7: dead references, unacquirable locks and out-of-range indices
are all absorbed inside send_to: whenever slot i is not deliverable (which
by deliverable covers exactly those three cases) send_to returns None and
leaves every observer untouched — nothing but the Option reaches the caller
— and send_to_all likewise returns only a count, bounded by the number of
slots.  There is no other outcome: the embedding of the code is total. -/
theorem C7_errors_absorbed (o : Observable) (h : Heap T S) (m : T) (i : Nat)
    (hfail : deliverable h.skeleton o.subscribers i = false) :
    o.send_to h m i = (none, h) ∧
    (o.send_to_all h m).1 ≤ o.subscribers.length := by
  refine ⟨send_to_of_fail hfail, ?_⟩
  rw [send_to_all_count]
  calc (List.range o.subscribers.length).countP
        (fun i => deliverable h.skeleton o.subscribers i)
      ≤ (List.range o.subscribers.length).length := List.countP_le_length _
    _ = o.subscribers.length := List.length_range _

/-- Witness for C7 at a concrete input: slot 1 of wObs is dead, send_to
absorbs it, and the send_to_all count is bounded by the slot count. -/
theorem C7_errors_absorbed_witness :
    wObs.send_to wHeap 5 1 = (none, wHeap) ∧
    (wObs.send_to_all wHeap 5).1 ≤ wObs.subscribers.length :=
  C7_errors_absorbed wObs wHeap 5 1 (by decide)

/-- Claim C8: new() produces an empty subscriber sequence and, over any
trace of register / send_to / send_to_all calls, only register mutates the
sequence (by appending) and no call ever removes an entry: the final
sequence is exactly the registered weak references in registration order
(dead entries simply stay in place as permanently failing slots). -/
theorem C8_lifecycle (ops : List (Op T)) (h : Heap T S) :
    Observable.new.subscribers = ([] : List Nat) ∧
    (ops.foldl exec (Observable.new, h)).1.subscribers = regsOf ops := by
  refine ⟨rfl, ?_⟩
  rw [foldl_exec_subscribers]
  rfl

/-- Claim C9: the value returned by send_to_all is at most the number of
registered slots, and an Observable with zero registrations returns 0. -/
theorem C9_count_le (o : Observable) (h : Heap T S) (m : T) :
    (o.send_to_all h m).1 ≤ o.subscribers.length ∧
    (Observable.new.send_to_all h m).1 = 0 := by
  constructor
  · rw [send_to_all_count]
    calc (List.range o.subscribers.length).countP
          (fun i => deliverable h.skeleton o.subscribers i)
        ≤ (List.range o.subscribers.length).length := List.countP_le_length _
      _ = o.subscribers.length := List.length_range _
  · rfl

/-- Claim C10: broadcasting after registering one extra weak reference w
returns the count the broadcast would return without w, plus 1 if delivery
to the new slot (index = old length) succeeds and plus 0 if it fails; in
particular registering never decreases the fan-out count and increases it
by at most one. -/
theorem C10_register_step (o : Observable) (h : Heap T S) (m : T) (w : Nat) :
    ((o.register w).send_to_all h m).1 =
      (o.send_to_all h m).1 +
        (if ((o.register w).send_to h m o.subscribers.length).1.isSome
         then 1 else 0) ∧
    (o.send_to_all h m).1 ≤ ((o.register w).send_to_all h m).1 ∧
    ((o.register w).send_to_all h m).1 ≤ (o.send_to_all h m).1 + 1 := by
  have hmain : ((o.register w).send_to_all h m).1 =
      (o.send_to_all h m).1 +
        (if ((o.register w).send_to h m o.subscribers.length).1.isSome
         then 1 else 0) := by
    rw [send_to_all_count, send_to_all_count, send_to_isSome]
    have hlen : (o.register w).subscribers.length = o.subscribers.length + 1 := by
      simp [Observable.register]
    rw [hlen, List.range_succ, List.countP_append]
    congr 1
    · apply List.countP_congr
      intro i hi
      rw [List.mem_range] at hi
      rw [deliverable_congr
        (show (o.register w).subscribers[i]? = o.subscribers[i]? from
          List.getElem?_append_left hi)]
    · rw [List.countP_cons, List.countP_nil]
      cases hd : deliverable h.skeleton (o.register w).subscribers
          o.subscribers.length
      · simp
      · simp
  refine ⟨hmain, ?_, ?_⟩
  · rw [hmain]
    split <;> omega
  · rw [hmain]
    split <;> omega

end ObservableSpec
